import Mathlib

/-!
Verification of the single-table DynamoDB data-access layer
(`DynamoDbService` in `lib/stacks/lambda/request-lambda.cdk-stack.ts`),
the item lambda controllers (`lib/stacks/lambda/code/items/*.lambda-code.ts`),
the response-envelope builder (`lib/stacks/lambda/helpers/lambda-response.helper.ts`)
and the local route-registration/dispatch harness (`testing/server.ts`).

JavaScript objects are embedded as ordered association lists from field
name to field value (JS objects have unique keys; property assignment
replaces the existing entry in place or appends a fresh one at the end,
and `for...in` iterates entries in that order).  Field values are kept
abstract as strings: none of the verified operations inspects a value.
Asynchronous store calls are embedded as explicit state passing on a
table value; `uuid.v4()` and `new Date().toISOString()` are passed in as
explicit parameters.
-/

namespace CdkLocal

/-- A JavaScript object: an ordered list of (field name, value) entries. -/
abbrev Obj := List (String × String)

/-- Property read `o[k]`: the first entry named `k`, if any
(`none` models the JS value `undefined`). -/
def getF (o : Obj) (k : String) : Option String :=
  (o.find? (fun p => p.1 == k)).map (·.2)

/-- Property assignment `o[k] = v`: replaces the first entry named `k`
in place, or appends a fresh entry when the key is absent. -/
def setF : Obj → String → String → Obj
  | [], k, v => [(k, v)]
  | p :: rest, k, v => if p.1 == k then (k, v) :: rest else p :: setF rest k v

/-- The field names of an object, in entry order. -/
def keys (o : Obj) : List String := o.map Prod.fst

theorem getF_nil (k : String) : getF [] k = none := rfl

theorem getF_cons (p : String × String) (o : Obj) (k : String) :
    getF (p :: o) k = if p.1 = k then some p.2 else getF o k := by
  simp only [getF, List.find?_cons]
  by_cases h : p.1 = k
  · simp [h]
  · simp [h, beq_eq_false_iff_ne.mpr h]

theorem getF_setF_self (o : Obj) (k v : String) :
    getF (setF o k v) k = some v := by
  induction o with
  | nil => simp [setF, getF_cons]
  | cons p rest ih =>
    by_cases h : p.1 = k
    · simp [setF, h, getF_cons]
    · simp [setF, beq_eq_false_iff_ne.mpr h, getF_cons, h, ih]

theorem getF_setF_ne (o : Obj) (k v k' : String) (h : k' ≠ k) :
    getF (setF o k v) k' = getF o k' := by
  induction o with
  | nil => simp [setF, getF_cons, getF_nil, Ne.symm h]
  | cons p rest ih =>
    by_cases hp : p.1 = k
    · simp [setF, hp, getF_cons, Ne.symm h]
    · simp [setF, beq_eq_false_iff_ne.mpr hp, getF_cons, ih]

theorem getF_eq_none_iff (o : Obj) (k : String) :
    getF o k = none ↔ k ∉ keys o := by
  induction o with
  | nil => simp [getF_nil, keys]
  | cons p rest ih =>
    by_cases h : p.1 = k
    · simp [getF_cons, h, keys]
    · simp only [getF_cons, if_neg h, keys, List.map_cons, List.mem_cons]
      simp only [keys] at ih
      rw [ih]
      tauto

theorem setF_of_not_mem (o : Obj) (k v : String) (h : getF o k = none) :
    setF o k v = o ++ [(k, v)] := by
  induction o with
  | nil => rfl
  | cons p rest ih =>
    rw [getF_cons] at h
    by_cases hp : p.1 = k
    · simp [hp] at h
    · simp [hp] at h
      simp [setF, beq_eq_false_iff_ne.mpr hp, ih h]

/-! ## The DynamoDB table

The table is a key-value store whose primary key is the pair of the `PK`
and `SK` string attributes of the stored item; `PutCommand` replaces the
item that carries the same key, `GetCommand` is a point lookup. -/

/-- The backing DynamoDB table, as the collection of stored items. -/
abbrev Table := List Obj

/-- Two items occupy the same table slot when their `PK` and `SK`
attributes agree. -/
def sameKey (a b : Obj) : Bool :=
  getF a "PK" == getF b "PK" && getF a "SK" == getF b "SK"

/-- Effect of a `PutCommand`: the stored item with the same (`PK`, `SK`)
key, if any, is replaced by `r`. -/
def putItemTable (t : Table) (r : Obj) : Table :=
  r :: t.filter (fun o => !(sameKey o r))

/-- Effect of a `GetCommand`: point lookup by exact (`PK`, `SK`). -/
def getItem (t : Table) (pk sk : String) : Option Obj :=
  t.find? (fun o => getF o "PK" == some pk && getF o "SK" == some sk)

namespace DynamoDbService

/-- `removeKeys` on one item: the destructuring that drops the `SK` and
`PK` properties and keeps `otherFields`. -/
def removeKeysObj (o : Obj) : Obj :=
  o.filter (fun p => p.1 != "PK" && p.1 != "SK")

/-- `removeKeys` over a list of items. -/
def removeKeys (items : List Obj) : List Obj :=
  items.map removeKeysObj

/-- `putItem`: stamps `resource.lastModifiedOn = new Date().toISOString()`
(mutating the caller's object) and sends a `PutCommand`.  Returns the new
table together with the caller-visible mutated resource. -/
def putItem (t : Table) (now : String) (resource : Obj) : Table × Obj :=
  let r := setF resource "lastModifiedOn" now
  (putItemTable t r, r)

/-- `get`: point lookup at `PK = pk#id`, `SK = sk`; `undefined` when the
item is absent, otherwise the item with `PK`/`SK` stripped. -/
def get (t : Table) (id pk sk : String) : Option Obj :=
  (getItem t (pk ++ "#" ++ id) sk).map removeKeysObj

/-- `create`: assigns `id` (a fresh uuid, here the parameter `newId`),
`createdOn`, `PK = pk#id` and `SK = sk` onto the caller's resource object,
then `putItem`s it (which also stamps `lastModifiedOn`).  The source
returns `resource.id`; here the whole mutated resource is returned
together with the new table. -/
def create (t : Table) (resource : Obj) (pk sk newId now : String) :
    Table × Obj :=
  let r := setF resource "id" newId
  let r := setF r "createdOn" now
  let r := setF r "PK" (pk ++ "#" ++ newId)
  let r := setF r "SK" sk
  putItem t now r

/-- The `for (const prop in resource)` merge loop of `update`: every
property of `resource` except `createdOn` and `id` is assigned onto
`existingItem`. -/
def mergeInto (existingItem : Obj) (resource : Obj) : Obj :=
  resource.foldl
    (fun acc p => if p.1 == "createdOn" || p.1 == "id" then acc else setF acc p.1 p.2)
    existingItem

/-- `update`: derives `PK`/`SK` onto the incoming resource, fetches the
existing record, throws the bare string `'404'` when it is absent, merges
the resource's properties (except `createdOn` and `id`) onto the existing
record and `putItem`s the result. -/
def update (t : Table) (resource : Obj) (pk sk now : String) :
    Except String (Table × Obj) :=
  let rid := (getF resource "id").getD "undefined"
  let r := setF resource "PK" (pk ++ "#" ++ rid)
  let r := setF r "SK" sk
  match get t rid pk sk with
  | none => .error "404"
  | some existingItem => .ok (putItem t now (mergeInto existingItem r))

/-- The continuation-following loop of `list`: `items` holds the pages
read so far; while a `LastEvaluatedKey` is present (modelled by further
pages remaining) the next page is fetched and, when non-empty, pushed. -/
def listFollowPages (items : List Obj) : List (List Obj) → List Obj
  | [] => items
  | page :: rest =>
      listFollowPages (if page.length != 0 then items ++ page else items) rest

/-- `list`: the query responses arrive as a non-empty sequence of pages
(DynamoDB always returns at least one page, possibly empty; a page other
than the last carries a `LastEvaluatedKey`).  The loop concatenates the
pages and `removeKeys` strips `PK`/`SK` from the result. -/
def list (pages : List (List Obj)) : List Obj :=
  match pages with
  | [] => []
  | first :: rest => removeKeys (listFollowPages first rest)

end DynamoDbService

/-! ## Basic facts about the store and the service primitives -/

theorem getItem_putItemTable_self (t : Table) (m : Obj) (pk sk : String)
    (hpk : getF m "PK" = some pk) (hsk : getF m "SK" = some sk) :
    getItem (putItemTable t m) pk sk = some m := by
  simp [getItem, putItemTable, List.find?_cons, hpk, hsk]

namespace DynamoDbService

theorem getF_removeKeysObj_PK (o : Obj) : getF (removeKeysObj o) "PK" = none := by
  rw [getF_eq_none_iff]
  intro hmem
  simp only [keys, removeKeysObj, List.mem_map] at hmem
  obtain ⟨p, hp, hfst⟩ := hmem
  rw [List.mem_filter] at hp
  simp [hfst] at hp

theorem getF_removeKeysObj_SK (o : Obj) : getF (removeKeysObj o) "SK" = none := by
  rw [getF_eq_none_iff]
  intro hmem
  simp only [keys, removeKeysObj, List.mem_map] at hmem
  obtain ⟨p, hp, hfst⟩ := hmem
  rw [List.mem_filter] at hp
  simp [hfst] at hp

theorem getF_removeKeysObj (o : Obj) (k : String)
    (h1 : k ≠ "PK") (h2 : k ≠ "SK") :
    getF (removeKeysObj o) k = getF o k := by
  induction o with
  | nil => rfl
  | cons p rest ih =>
    by_cases hpk : p.1 = "PK"
    · simp [removeKeysObj, List.filter_cons, hpk, getF_cons, Ne.symm h1] at ih ⊢
      exact ih
    · by_cases hsk : p.1 = "SK"
      · simp [removeKeysObj, List.filter_cons, hsk, getF_cons, Ne.symm h2] at ih ⊢
        exact ih
      · have hcond : (p.1 != "PK" && p.1 != "SK") = true := by
          simp [bne_iff_ne, hpk, hsk]
        simp only [removeKeysObj, List.filter_cons, hcond, if_true] at ih ⊢
        rw [getF_cons, getF_cons, ih]

theorem mergeInto_cons (e : Obj) (p : String × String) (rest : Obj) :
    mergeInto e (p :: rest) =
      mergeInto (if p.1 == "createdOn" || p.1 == "id" then e else setF e p.1 p.2) rest := by
  simp [mergeInto]

theorem mergeInto_getF_of_not_mem (e r : Obj) (f : String)
    (h : getF r f = none) :
    getF (mergeInto e r) f = getF e f := by
  induction r generalizing e with
  | nil => rfl
  | cons p rest ih =>
    rw [getF_cons] at h
    by_cases hp : p.1 = f
    · simp [hp] at h
    · rw [if_neg hp] at h
      rw [mergeInto_cons]
      by_cases hskip : (p.1 == "createdOn" || p.1 == "id") = true
      · rw [if_pos hskip]
        exact ih e h
      · rw [if_neg hskip, ih _ h, getF_setF_ne _ _ _ _ (Ne.symm hp)]

theorem mergeInto_getF_immutable (e r : Obj) (f : String)
    (h : f = "createdOn" ∨ f = "id") :
    getF (mergeInto e r) f = getF e f := by
  induction r generalizing e with
  | nil => rfl
  | cons p rest ih =>
    rw [mergeInto_cons]
    by_cases hskip : (p.1 == "createdOn" || p.1 == "id") = true
    · rw [if_pos hskip]
      exact ih e
    · rw [if_neg hskip, ih]
      simp only [Bool.or_eq_true, beq_iff_eq, not_or] at hskip
      apply getF_setF_ne
      rcases h with h | h
      · rw [h]
        exact Ne.symm hskip.1
      · rw [h]
        exact Ne.symm hskip.2

theorem mergeInto_getF_of_mem (e r : Obj) (f v : String)
    (hnd : (keys r).Nodup) (hf : getF r f = some v)
    (h1 : f ≠ "createdOn") (h2 : f ≠ "id") :
    getF (mergeInto e r) f = some v := by
  induction r generalizing e with
  | nil => simp [getF_nil] at hf
  | cons p rest ih =>
    simp only [keys, List.map_cons, List.nodup_cons] at hnd
    rw [getF_cons] at hf
    rw [mergeInto_cons]
    by_cases hp : p.1 = f
    · rw [if_pos hp] at hf
      have hskip : (p.1 == "createdOn" || p.1 == "id") = false := by
        simp [hp, h1, h2]
      rw [hskip]
      simp only [Bool.false_eq_true, if_false]
      have hrest : getF rest f = none := by
        rw [getF_eq_none_iff]
        rw [hp] at hnd
        exact hnd.1
      rw [mergeInto_getF_of_not_mem _ _ _ hrest, hp, getF_setF_self]
      exact hf
    · rw [if_neg hp] at hf
      by_cases hskip : (p.1 == "createdOn" || p.1 == "id") = true
      · rw [if_pos hskip]
        exact ih e hnd.2 hf
      · rw [if_neg hskip]
        exact ih _ hnd.2 hf

theorem listFollowPages_eq (items : List Obj) (pages : List (List Obj)) :
    listFollowPages items pages = items ++ pages.flatten := by
  induction pages generalizing items with
  | nil => simp [listFollowPages]
  | cons page rest ih =>
    rw [listFollowPages, ih]
    by_cases h : page = []
    · simp [h]
    · have : (page.length != 0) = true := by
        simp [bne_iff_ne, List.length_eq_zero, h]
      simp [this]

end DynamoDbService

/-! ## Response envelope builder and item controllers -/

/-- The JavaScript values that flow through envelope bodies.  Body
serialization is abstracted: `JSON.stringify` on a defined value followed
by the dispatcher's `JSON.parse` is the identity on these values, and
`JSON.stringify(undefined)` is `undefined`, which `undef` models. -/
inductive JsVal where
  | undef
  | str (s : String)
  | obj (o : Obj)
  | arr (a : List Obj)
  deriving DecidableEq

/-- The `HeadersModel` of the response helper:
`Record<string, string> | 'ALLOW' | undefined`. -/
inductive HeadersModel where
  | undef
  | allow
  | explicit (hs : List (String × String))
  deriving DecidableEq

/-- The wildcard CORS headers installed for the `'ALLOW'` mode. -/
def corsHeaders : List (String × String) :=
  [("Access-Control-Allow-Headers", "*"),
   ("Access-Control-Allow-Origin", "*"),
   ("Access-Control-Allow-Methods", "*")]

/-- A built response envelope: `statusCode`, `headers` and an optional
serialized `body` (`none` models an `undefined` body). -/
structure Envelope where
  statusCode : Nat
  headers : List (String × String)
  body : Option JsVal
  deriving DecidableEq

/-- `buildResponseBody`: picks the headers for the mode, passes a string
body through unchanged, serializes any other defined body, and leaves an
`undefined` body `undefined` (`JSON.stringify(undefined)` is
`undefined`). -/
def buildResponseBody (status : Nat) (body : JsVal) (headers : HeadersModel) :
    Envelope :=
  { statusCode := status
    headers :=
      match headers with
      | .allow => corsHeaders
      | .explicit hs => hs
      | .undef => []
    body :=
      match body with
      | .undef => none
      | v => some v }

/-- A value a JavaScript `throw` can carry: an `Error` object (which has
a `message` property) or a bare thrown string (which has none). -/
inductive Thrown where
  | errObj (message : String)
  | strThrow (s : String)
  deriving DecidableEq

/-- The `message` property of a caught value: present only on `Error`
objects; reading it on a bare string yields `undefined`. -/
def jsMessage : Thrown → Option String
  | .errObj m => some m
  | .strThrow _ => none

/-- The textual content of a thrown value: the message of an `Error`, or
the thrown string itself. -/
def thrownContent : Thrown → String
  | .errObj m => m
  | .strThrow s => s

/-- `ItemsGetController.handler`: fetches the item and answers
`buildResponseBody(200, item, 'ALLOW')` — also when the item is absent
and `item` is `undefined`. -/
def itemsGetHandler (t : Table) (id : String) : Envelope :=
  buildResponseBody 200
    (match DynamoDbService.get t id "ITEM" "ITEM" with
     | some item => .obj item
     | none => .undef)
    .allow

/-- `ItemsUpdateController.handler`: runs the update and answers 204 with
no body; a thrown value is caught and turned into
`buildResponseBody(500, error.message, 'ALLOW')` — the service throws the
bare string `'404'`, whose `message` property is `undefined`. -/
def itemsUpdateHandler (t : Table) (body : Obj) (now : String) :
    Envelope × Table :=
  match DynamoDbService.update t body "ITEM" "ITEM" now with
  | .ok (t', _) => (buildResponseBody 204 .undef .allow, t')
  | .error s =>
      (buildResponseBody 500
        (match jsMessage (.strThrow s) with
         | some m => .str m
         | none => .undef)
        .allow, t)

/-! ## Local emulation dispatcher (`testing/server.ts`) -/

/-- The transport response the express layer writes: a status and the
JSON value handed to `res.json`. -/
structure HttpResponse where
  status : Nat
  body : JsVal
  deriving DecidableEq

/-- Writing a handler result to the transport:
`res.status(result.statusCode || 200).json(result.body || \x7b\x7d)` —
a missing status falls back to 200 and an `undefined` body becomes the
empty object. -/
def dispatchResult (result : Envelope) : HttpResponse :=
  { status := if result.statusCode = 0 then 200 else result.statusCode
    body :=
      match result.body with
      | none => .obj []
      | some v => v }

/-- The registered route callback around one handler invocation: a normal
result is written out; any thrown value is caught and answered as
`res.status(500).json(\x7b error: e.message \x7d)` — JSON serialization
drops the `error` field when `e.message` is `undefined`. -/
def routeDispatch (run : Except Thrown Envelope) : HttpResponse :=
  match run with
  | .ok result => dispatchResult result
  | .error e =>
      { status := 500
        body := .obj
          (match jsMessage e with
           | some m => [("error", m)]
           | none => []) }

/-! ## Route registration -/

/-- One handler operation as the registration loop sees it: the
lower-cased HTTP method from the `method` metadata (`none` when the
metadata is absent, in which case the operation is skipped), and the
controller's `basePath` and the operation's `route` metadata. -/
structure OpSpec where
  verb : Option String
  base : String
  sub : String

/-- Uppercasing per `String.prototype.toUpperCase`, character by
character. -/
def jsToUpper (s : String) : String :=
  String.mk (s.data.map Char.toUpper)

/-- The full route path:
the slash-join of the non-empty entries of `[basePath, route]` behind a
leading slash (`filter(Boolean)` drops empty strings). -/
def fullPath (base sub : String) : String :=
  "/" ++ String.intercalate "/" (List.filter (fun x => x != "") [base, sub])

/-- The duplicate-tracking key of a route:
the interpolation of the upper-cased verb and the full path. -/
def routeId (verb path : String) : String :=
  "[" ++ jsToUpper verb ++ "] " ++ path

/-- The route keys the operations resolve to, in registration order
(operations without a `method` metadata entry are skipped). -/
def opRouteIds (ops : List OpSpec) : List String :=
  ops.filterMap (fun op => op.verb.map (fun v => routeId v (fullPath op.base op.sub)))

/-- The registration loop over the discovered operations: `acc` is the
`routes` array accumulated so far; a route key already present makes the
start throw `Duplicate Route: ...`, otherwise the key is pushed and the
route is installed. -/
def registerRoutes : List OpSpec → List String → Except String (List String)
  | [], acc => .ok acc
  | op :: rest, acc =>
      match op.verb with
      | none => registerRoutes rest acc
      | some v =>
          let rid := routeId v (fullPath op.base op.sub)
          if acc.contains rid then .error ("Duplicate Route: " ++ rid)
          else registerRoutes rest (acc ++ [rid])

/-- Process start: the registration loop runs eagerly over every
discovered operation before `app.listen` is reached; a thrown duplicate
error aborts start (`.error`), and only a completed loop (`.ok`) reaches
the listening state. -/
def serverStart (ops : List OpSpec) : Except String (List String) :=
  registerRoutes ops []

/-! ## Claim C3: pagination transparency of `list` -/

/-- Claim C3 (confirmed): over a backing dataset spanning any positive
number of backend result pages, `list` follows the continuation tokens
until exhausted and returns the concatenation of all pages (with the
internal keys stripped) — no omissions, and no duplicates whenever the
backend dataset itself has none — and an empty result yields the empty
sequence, never an error. -/
theorem list_follows_all_pages (pages : List (List Obj)) (h : pages ≠ []) :
    DynamoDbService.list pages = DynamoDbService.removeKeys pages.flatten ∧
    ((DynamoDbService.removeKeys pages.flatten).Nodup →
      (DynamoDbService.list pages).Nodup) ∧
    (pages.flatten = [] → DynamoDbService.list pages = []) := by
  obtain ⟨first, rest, rfl⟩ := List.exists_cons_of_ne_nil h
  have heq : DynamoDbService.list (first :: rest) =
      DynamoDbService.removeKeys (first :: rest).flatten := by
    rw [DynamoDbService.list, DynamoDbService.listFollowPages_eq, List.flatten_cons]
  refine ⟨heq, fun hnd => heq ▸ hnd, fun h0 => ?_⟩
  rw [heq, h0]
  rfl

/-- Witness for C3 at a concrete two-page dataset. -/
theorem list_follows_all_pages_witness :
    DynamoDbService.list [[[("PK", "ITEM#a"), ("SK", "ITEM"), ("x", "1")]],
        [[("y", "2")]]] =
      [[("x", "1")], [("y", "2")]] := by
  have h := (list_follows_all_pages
    [[[("PK", "ITEM#a"), ("SK", "ITEM"), ("x", "1")]], [[("y", "2")]]]
    (by decide)).1
  rw [h]
  decide

/-! ## Claim C5: the internal key attributes are never exposed -/

/-- Claim C5 (confirmed): every record returned by `list` or `get`
carries neither a `PK` nor an `SK` attribute. -/
theorem returned_records_carry_no_keys (pages : List (List Obj))
    (t : Table) (id pk sk : String) :
    (∀ o ∈ DynamoDbService.list pages,
      getF o "PK" = none ∧ getF o "SK" = none) ∧
    (∀ g, DynamoDbService.get t id pk sk = some g →
      getF g "PK" = none ∧ getF g "SK" = none) := by
  constructor
  · intro o ho
    cases pages with
    | nil => simp [DynamoDbService.list] at ho
    | cons first rest =>
      rw [DynamoDbService.list] at ho
      simp only [DynamoDbService.removeKeys, List.mem_map] at ho
      obtain ⟨o', _, rfl⟩ := ho
      exact ⟨DynamoDbService.getF_removeKeysObj_PK o',
        DynamoDbService.getF_removeKeysObj_SK o'⟩
  · intro g hg
    rw [DynamoDbService.get, Option.map_eq_some'] at hg
    obtain ⟨it, _, rfl⟩ := hg
    exact ⟨DynamoDbService.getF_removeKeysObj_PK it,
      DynamoDbService.getF_removeKeysObj_SK it⟩

/-- Witness for C5: a concrete listed record exposes no key fields. -/
theorem returned_records_carry_no_keys_witness :
    getF [("x", "1")] "PK" = none ∧ getF [("x", "1")] "SK" = none :=
  (returned_records_carry_no_keys
      [[[("PK", "ITEM#a"), ("SK", "ITEM"), ("x", "1")]]] [] "i" "p" "s").1
    [("x", "1")] (by decide)

/-! ## Claim C10: `create` mutates the caller's resource in place -/

theorem create_resource_state (t : Table) (e : Obj)
    (pk sk nid now : String) :
    getF (DynamoDbService.create t e pk sk nid now).2 "id" = some nid ∧
    getF (DynamoDbService.create t e pk sk nid now).2 "createdOn" = some now ∧
    getF (DynamoDbService.create t e pk sk nid now).2 "lastModifiedOn" = some now ∧
    getF (DynamoDbService.create t e pk sk nid now).2 "PK" = some (pk ++ "#" ++ nid) ∧
    getF (DynamoDbService.create t e pk sk nid now).2 "SK" = some sk ∧
    (DynamoDbService.create t e pk sk nid now).1 =
      putItemTable t (DynamoDbService.create t e pk sk nid now).2 := by
  simp only [DynamoDbService.create, DynamoDbService.putItem]
  refine ⟨?_, ?_, ?_, ?_, ?_, trivial⟩
  · rw [getF_setF_ne _ _ _ _ (by decide), getF_setF_ne _ _ _ _ (by decide),
      getF_setF_ne _ _ _ _ (by decide), getF_setF_ne _ _ _ _ (by decide),
      getF_setF_self]
  · rw [getF_setF_ne _ _ _ _ (by decide), getF_setF_ne _ _ _ _ (by decide),
      getF_setF_ne _ _ _ _ (by decide), getF_setF_self]
  · rw [getF_setF_self]
  · rw [getF_setF_ne _ _ _ _ (by decide), getF_setF_ne _ _ _ _ (by decide),
      getF_setF_self]
  · rw [getF_setF_ne _ _ _ _ (by decide), getF_setF_self]

/-- Claim C10 (confirmed): `create` assigns onto the caller's resource
object itself (no copy is taken), so after the call the caller's object
carries the server-assigned `id`, `createdOn` and `lastModifiedOn`
together with the internal `PK` and `SK` key attributes, and the very
same object is what was persisted — even though the source returns only
`resource.id`.  The in-place mutation is embedded by `create` returning
the caller-visible object state. -/
theorem create_mutates_caller_resource (t : Table) (e : Obj)
    (pk sk nid now : String) :
    getF (DynamoDbService.create t e pk sk nid now).2 "id" = some nid ∧
    getF (DynamoDbService.create t e pk sk nid now).2 "createdOn" = some now ∧
    getF (DynamoDbService.create t e pk sk nid now).2 "lastModifiedOn" = some now ∧
    getF (DynamoDbService.create t e pk sk nid now).2 "PK" = some (pk ++ "#" ++ nid) ∧
    getF (DynamoDbService.create t e pk sk nid now).2 "SK" = some sk ∧
    (DynamoDbService.create t e pk sk nid now).1 =
      putItemTable t (DynamoDbService.create t e pk sk nid now).2 :=
  create_resource_state t e pk sk nid now

/-! ## Claim C4: create/get round-trip -/

/-- Claim C4 (confirmed): `get` after `create` returns the created
payload plus the server-assigned `id`, `createdOn` and `lastModifiedOn`,
with no `PK` or `SK` field present, and with every other field exactly as
on the payload. -/
theorem create_get_roundtrip (t : Table) (e : Obj) (pk sk nid now : String) :
    ∃ g, DynamoDbService.get (DynamoDbService.create t e pk sk nid now).1
        nid pk sk = some g ∧
      getF g "id" = some nid ∧
      getF g "createdOn" = some now ∧
      getF g "lastModifiedOn" = some now ∧
      getF g "PK" = none ∧
      getF g "SK" = none ∧
      ∀ f, f ≠ "id" → f ≠ "createdOn" → f ≠ "lastModifiedOn" →
        f ≠ "PK" → f ≠ "SK" → getF g f = getF e f := by
  obtain ⟨hrid, hrco, hrlm, hrpk, hrsk, htab⟩ :=
    create_resource_state t e pk sk nid now
  refine ⟨DynamoDbService.removeKeysObj (DynamoDbService.create t e pk sk nid now).2,
    ?_, ?_, ?_, ?_, DynamoDbService.getF_removeKeysObj_PK _,
    DynamoDbService.getF_removeKeysObj_SK _, ?_⟩
  · rw [DynamoDbService.get, htab, getItem_putItemTable_self t _ _ _ hrpk hrsk]
    rfl
  · rw [DynamoDbService.getF_removeKeysObj _ _ (by decide) (by decide), hrid]
  · rw [DynamoDbService.getF_removeKeysObj _ _ (by decide) (by decide), hrco]
  · rw [DynamoDbService.getF_removeKeysObj _ _ (by decide) (by decide), hrlm]
  · intro f h1 h2 h3 h4 h5
    rw [DynamoDbService.getF_removeKeysObj _ _ h4 h5]
    simp only [DynamoDbService.create, DynamoDbService.putItem]
    rw [getF_setF_ne _ _ _ _ h3, getF_setF_ne _ _ _ _ h5, getF_setF_ne _ _ _ _ h4,
      getF_setF_ne _ _ _ _ h2, getF_setF_ne _ _ _ _ h1]

/-- Witness for C4 at a concrete payload. -/
theorem create_get_roundtrip_witness :
    DynamoDbService.get
        (DynamoDbService.create [] [("name", "A")] "ITEM" "ITEM" "u1" "T1").1
        "u1" "ITEM" "ITEM" =
      some [("name", "A"), ("id", "u1"), ("createdOn", "T1"),
        ("lastModifiedOn", "T1")] ∧
    getF [("name", "A"), ("id", "u1"), ("createdOn", "T1"),
        ("lastModifiedOn", "T1")] "name" = getF [("name", "A")] "name" := by
  refine ⟨by decide, ?_⟩
  obtain ⟨g, hget, _, _, _, _, _, hfld⟩ :=
    create_get_roundtrip [] [("name", "A")] "ITEM" "ITEM" "u1" "T1"
  have hg : some g = some [("name", "A"), ("id", "u1"), ("createdOn", "T1"),
      ("lastModifiedOn", "T1")] := by
    rw [← hget]
    decide
  have hg' := Option.some.inj hg
  subst hg'
  exact hfld "name" (by decide) (by decide) (by decide) (by decide) (by decide)

/-! ## Claim C1: merge-patch semantics of `update` -/

theorem update_eq_of_found (t : Table) (p : Obj) (pk sk now i : String)
    (e0 : Obj) (hid : getF p "id" = some i)
    (hex : DynamoDbService.get t i pk sk = some e0) :
    DynamoDbService.update t p pk sk now =
      .ok (DynamoDbService.putItem t now
        (DynamoDbService.mergeInto e0
          (setF (setF p "PK" (pk ++ "#" ++ i)) "SK" sk))) := by
  rw [DynamoDbService.update]
  simp only [hid, Option.getD_some, hex]

theorem update_eq_of_missing (t : Table) (p : Obj) (pk sk now i : String)
    (hid : getF p "id" = some i)
    (hex : DynamoDbService.get t i pk sk = none) :
    DynamoDbService.update t p pk sk now = .error "404" := by
  rw [DynamoDbService.update]
  simp only [hid, Option.getD_some, hex]

/-- Claim C1 (corrected): for a payload `p` that carries the stored
entity's id and no internal `PK`/`SK` fields, `update` merges rather than
replaces: every field present on `p` except `id`, `createdOn` — and
except `lastModifiedOn`, which the write unconditionally re-stamps to the
current time — overwrites the stored field; every field absent from `p`
is preserved; and the stored `id` and `createdOn` are unchanged. -/
theorem update_merge_patch (t : Table) (p : Obj) (pk sk now i : String)
    (e0 : Obj)
    (hnd : (keys p).Nodup)
    (hid : getF p "id" = some i)
    (hpk : getF p "PK" = none) (hsk : getF p "SK" = none)
    (hex : DynamoDbService.get t i pk sk = some e0) :
    ∃ t' r', DynamoDbService.update t p pk sk now = .ok (t', r') ∧
      ∃ g, DynamoDbService.get t' i pk sk = some g ∧
        (∀ f v, f ≠ "id" → f ≠ "createdOn" → f ≠ "lastModifiedOn" →
          getF p f = some v → getF g f = some v) ∧
        (∀ f, f ≠ "lastModifiedOn" → getF p f = none →
          getF g f = getF e0 f) ∧
        getF g "id" = getF e0 "id" ∧
        getF g "createdOn" = getF e0 "createdOn" ∧
        getF g "lastModifiedOn" = some now := by
  have hrf : ∀ f, f ≠ "PK" → f ≠ "SK" →
      getF (setF (setF p "PK" (pk ++ "#" ++ i)) "SK" sk) f = getF p f := by
    intro f h1 h2
    rw [getF_setF_ne _ _ _ _ h2, getF_setF_ne _ _ _ _ h1]
  have hrPK : getF (setF (setF p "PK" (pk ++ "#" ++ i)) "SK" sk) "PK" =
      some (pk ++ "#" ++ i) := by
    rw [getF_setF_ne _ _ _ _ (by decide), getF_setF_self]
  have hrSK : getF (setF (setF p "PK" (pk ++ "#" ++ i)) "SK" sk) "SK" =
      some sk := getF_setF_self _ _ _
  have hpkmem : "PK" ∉ keys p := (getF_eq_none_iff p "PK").mp hpk
  have hskmem : "SK" ∉ keys p := (getF_eq_none_iff p "SK").mp hsk
  have hr1 : setF p "PK" (pk ++ "#" ++ i) = p ++ [("PK", pk ++ "#" ++ i)] :=
    setF_of_not_mem _ _ _ hpk
  have hr2 : getF (p ++ [("PK", pk ++ "#" ++ i)]) "SK" = none := by
    rw [getF_eq_none_iff]
    simp only [keys, List.map_append, List.mem_append, List.map_cons,
      List.map_nil, List.mem_singleton]
    rintro (h | h)
    · exact hskmem h
    · exact absurd h (by decide)
  have hrkeys : (keys (setF (setF p "PK" (pk ++ "#" ++ i)) "SK" sk)).Nodup := by
    rw [hr1, setF_of_not_mem _ _ _ hr2]
    simp only [keys, List.map_append, List.map_cons, List.map_nil]
    rw [List.append_assoc, List.nodup_append]
    refine ⟨hnd, by decide, ?_⟩
    intro a ha hb
    simp only [List.cons_append, List.nil_append, List.mem_cons,
      List.mem_singleton, List.not_mem_nil, or_false] at hb
    rcases hb with rfl | rfl
    · exact hpkmem ha
    · exact hskmem ha
  have hmer := DynamoDbService.mergeInto_getF_of_mem e0 _ "PK" _ hrkeys hrPK
    (by decide) (by decide)
  have hmes := DynamoDbService.mergeInto_getF_of_mem e0 _ "SK" _ hrkeys hrSK
    (by decide) (by decide)
  have hmPK : getF (setF (DynamoDbService.mergeInto e0
      (setF (setF p "PK" (pk ++ "#" ++ i)) "SK" sk)) "lastModifiedOn" now)
      "PK" = some (pk ++ "#" ++ i) := by
    rw [getF_setF_ne _ _ _ _ (by decide)]
    exact hmer
  have hmSK : getF (setF (DynamoDbService.mergeInto e0
      (setF (setF p "PK" (pk ++ "#" ++ i)) "SK" sk)) "lastModifiedOn" now)
      "SK" = some sk := by
    rw [getF_setF_ne _ _ _ _ (by decide)]
    exact hmes
  refine ⟨_, _, update_eq_of_found t p pk sk now i e0 hid hex, ?_⟩
  refine ⟨DynamoDbService.removeKeysObj
      (setF (DynamoDbService.mergeInto e0
        (setF (setF p "PK" (pk ++ "#" ++ i)) "SK" sk)) "lastModifiedOn" now),
    ?_, ?_, ?_, ?_, ?_, ?_⟩
  · rw [DynamoDbService.get, getItem_putItemTable_self t _ _ _ hmPK hmSK]
    rfl
  · intro f v h1 h2 h3 hpf
    have hfpk : f ≠ "PK" := by
      intro hf
      rw [hf, hpk] at hpf
      exact Option.noConfusion hpf
    have hfsk : f ≠ "SK" := by
      intro hf
      rw [hf, hsk] at hpf
      exact Option.noConfusion hpf
    rw [DynamoDbService.getF_removeKeysObj _ _ hfpk hfsk,
      getF_setF_ne _ _ _ _ h3]
    exact DynamoDbService.mergeInto_getF_of_mem e0 _ f v hrkeys
      ((hrf f hfpk hfsk).trans hpf) h2 h1
  · intro f h3 hpf
    by_cases hfpk : f = "PK"
    · subst hfpk
      rw [DynamoDbService.getF_removeKeysObj_PK]
      rw [DynamoDbService.get, Option.map_eq_some'] at hex
      obtain ⟨it, _, rfl⟩ := hex
      rw [DynamoDbService.getF_removeKeysObj_PK]
    · by_cases hfsk : f = "SK"
      · subst hfsk
        rw [DynamoDbService.getF_removeKeysObj_SK]
        rw [DynamoDbService.get, Option.map_eq_some'] at hex
        obtain ⟨it, _, rfl⟩ := hex
        rw [DynamoDbService.getF_removeKeysObj_SK]
      · rw [DynamoDbService.getF_removeKeysObj _ _ hfpk hfsk,
          getF_setF_ne _ _ _ _ h3]
        exact DynamoDbService.mergeInto_getF_of_not_mem e0 _ f
          ((hrf f hfpk hfsk).trans hpf)
  · rw [DynamoDbService.getF_removeKeysObj _ _ (by decide) (by decide),
      getF_setF_ne _ _ _ _ (by decide)]
    exact DynamoDbService.mergeInto_getF_immutable e0 _ "id" (Or.inr rfl)
  · rw [DynamoDbService.getF_removeKeysObj _ _ (by decide) (by decide),
      getF_setF_ne _ _ _ _ (by decide)]
    exact DynamoDbService.mergeInto_getF_immutable e0 _ "createdOn" (Or.inl rfl)
  · rw [DynamoDbService.getF_removeKeysObj _ _ (by decide) (by decide),
      getF_setF_self]

/-- A concrete stored item, as persisted (internal keys included). -/
def storedItem : Obj :=
  [("PK", "ITEM#A"), ("SK", "ITEM"), ("id", "A"), ("createdOn", "T0"),
   ("lastModifiedOn", "T0"), ("name", "old"), ("description", "keep")]

/-- A concrete one-item table. -/
def demoTable : Table := [storedItem]

/-- A concrete partial update payload carrying the stored id. -/
def demoPayload : Obj := [("id", "A"), ("name", "new")]

/-- A concrete update payload carrying a stale `lastModifiedOn`. -/
def stalePayload : Obj := [("id", "A"), ("lastModifiedOn", "OLD")]

/-- Witness for C1 at a concrete table and payload. -/
theorem update_merge_patch_witness :
    (keys demoPayload).Nodup ∧
    (∃ t' r',
      DynamoDbService.update demoTable demoPayload "ITEM" "ITEM" "T2" =
        .ok (t', r') ∧
      ∃ g, DynamoDbService.get t' "A" "ITEM" "ITEM" = some g ∧
        getF g "name" = some "new" ∧
        getF g "description" = some "keep" ∧
        getF g "createdOn" = some "T0" ∧
        getF g "lastModifiedOn" = some "T2") := by
  refine ⟨by decide, ?_⟩
  obtain ⟨t', r', hupd, g, hget, hover, hpres, hidp, hco, hlm⟩ :=
    update_merge_patch demoTable demoPayload "ITEM" "ITEM" "T2" "A"
      (DynamoDbService.removeKeysObj storedItem)
      (by decide) (by decide) (by decide) (by decide) (by decide)
  refine ⟨t', r', hupd, g, hget, ?_, ?_, ?_, hlm⟩
  · exact hover "name" "new" (by decide) (by decide) (by decide) (by decide)
  · rw [hpres "description" (by decide) (by decide)]
    decide
  · rw [hco]
    decide

/-- Counterexample to C1 as stated: `lastModifiedOn` is a field present
on the payload and distinct from `id` and `createdOn`, yet its payload
value `"OLD"` does not survive the update — `putItem` re-stamps it with
the write time `"T2"`. -/
theorem update_overwrite_fails_for_lastModifiedOn :
    getF stalePayload "lastModifiedOn" = some "OLD" ∧
    (DynamoDbService.update demoTable stalePayload "ITEM" "ITEM" "T2").toOption.map
        (fun tr => (DynamoDbService.get tr.1 "A" "ITEM" "ITEM").map
          (fun g => getF g "lastModifiedOn")) =
      some (some (some "T2")) ∧
    ("T2" : String) ≠ "OLD" := by decide

/-! ## Claim C2: update on a missing id -/

/-- Claim C2 (corrected): `update` on an id with no matching stored
record always fails by throwing the Not-Found literal `'404'` and writes
nothing — never a silent success.  However, the items update controller
catches the thrown string and answers `buildResponseBody(500,
error.message)`, and a bare string has no `message` property, so the
client-visible response is a generic status 500 with an undefined body,
not a 404-class error distinguishable from a generic 500. -/
theorem update_missing_id_fails (t : Table) (body : Obj) (now i : String)
    (hid : getF body "id" = some i)
    (habs : DynamoDbService.get t i "ITEM" "ITEM" = none) :
    DynamoDbService.update t body "ITEM" "ITEM" now = .error "404" ∧
    (itemsUpdateHandler t body now).1.statusCode = 500 ∧
    (itemsUpdateHandler t body now).1.body = none ∧
    (itemsUpdateHandler t body now).2 = t := by
  have h := update_eq_of_missing t body "ITEM" "ITEM" now i hid habs
  refine ⟨h, ?_, ?_, ?_⟩ <;>
    simp [itemsUpdateHandler, h, jsMessage, buildResponseBody]

/-- Witness for C2 on the empty table. -/
theorem update_missing_id_fails_witness :
    DynamoDbService.update [] [("id", "A")] "ITEM" "ITEM" "T1" = .error "404" ∧
    (itemsUpdateHandler [] [("id", "A")] "T1").1.statusCode = 500 :=
  ⟨(update_missing_id_fails [] [("id", "A")] "T1" "A" (by decide) (by decide)).1,
   (update_missing_id_fails [] [("id", "A")] "T1" "A" (by decide) (by decide)).2.1⟩

/-- Counterexample to C2 as stated: for a missing id the client-visible
response is the generic status 500 with an undefined body — not a
404-class status distinguishable from a generic 500. -/
theorem update_missing_id_visible_as_500 :
    (itemsUpdateHandler [] [("id", "B")] "T1").1.statusCode = 500 ∧
    (itemsUpdateHandler [] [("id", "B")] "T1").1.body = none ∧
    (itemsUpdateHandler [] [("id", "B")] "T1").1.statusCode ≠ 404 := by decide

/-! ## Claim C9: GET /items/:id -/

/-- Claim C9 (corrected): an HTTP GET on `/items/:id` answers status 200
with the item when a record with that id exists; when the id is absent
the controller still answers status 200 — with an `undefined` body that
the dispatcher writes out as the empty object — and never an error
response. -/
theorem items_get_route (t : Table) (id : String) :
    (∀ item, DynamoDbService.get t id "ITEM" "ITEM" = some item →
      routeDispatch (.ok (itemsGetHandler t id)) =
        { status := 200, body := .obj item }) ∧
    (DynamoDbService.get t id "ITEM" "ITEM" = none →
      routeDispatch (.ok (itemsGetHandler t id)) =
        { status := 200, body := .obj [] }) := by
  constructor
  · intro item hit
    simp [routeDispatch, dispatchResult, itemsGetHandler, hit,
      buildResponseBody]
  · intro hit
    simp [routeDispatch, dispatchResult, itemsGetHandler, hit,
      buildResponseBody]

/-- Witness for C9: both branches at concrete tables. -/
theorem items_get_route_witness :
    routeDispatch (.ok (itemsGetHandler demoTable "A")) =
      { status := 200,
        body := .obj (DynamoDbService.removeKeysObj storedItem) } ∧
    routeDispatch (.ok (itemsGetHandler [] "A")) =
      { status := 200, body := .obj [] } :=
  ⟨(items_get_route demoTable "A").1 _ (by decide),
   (items_get_route [] "A").2 (by decide)⟩

/-- Counterexample to C9 as stated: with no record for the id, the route
still answers a 200 success (with an empty object body), not an error
response. -/
theorem items_get_absent_answers_200 :
    DynamoDbService.get ([] : Table) "A" "ITEM" "ITEM" = none ∧
    (routeDispatch (.ok (itemsGetHandler [] "A"))).status = 200 := by decide

/-! ## Claim C8: the dispatch catch-all -/

/-- Claim C8 (corrected): any value thrown out of a handler is caught at
the dispatch boundary — the process never crashes — and is written as a
status-500 response whose body is the object holding `e.message` under
the `error` field.  For a thrown `Error` the message therefore appears in
the body; for a thrown non-Error value such as a bare string, `e.message`
is `undefined`, the field is dropped by JSON serialization, and the body
is the empty object — the thrown string's content is lost. -/
theorem dispatch_catch_all (e : Thrown) :
    (routeDispatch (.error e)).status = 500 ∧
    (routeDispatch (.error e)).body =
      .obj (match e with
        | .errObj m => [("error", m)]
        | .strThrow _ => []) := by
  cases e <;> simp [routeDispatch, jsMessage]

/-- Counterexample to C8 as stated: for the thrown bare string `'404'`
the 500 response body is the empty object — it does not carry the
error's content `"404"`. -/
theorem dispatch_string_throw_loses_message :
    (routeDispatch (.error (.strThrow "404"))).status = 500 ∧
    (routeDispatch (.error (.strThrow "404"))).body = .obj [] ∧
    thrownContent (.strThrow "404") = "404" := by decide

/-! ## Claim C7: full route path construction -/

theorem data_ne_nil_of_ne_empty (s : String) (h : s ≠ "") : s.data ≠ [] := by
  intro hd
  apply h
  cases s with
  | mk d =>
    simp only [String.data] at hd
    simp [hd]

/-- Claim C7 (corrected): the full route path equals `"/"` followed by
the `"/"`-join of the non-empty segments of `[basePath, subPath]`; it
always begins with a slash, and with exactly one leading slash provided
the non-empty segments do not themselves begin with a slash (a segment
with its own leading slash is copied verbatim, producing `"//..."`). -/
theorem fullPath_one_leading_slash (b s : String)
    (hb : b.data.head? ≠ some '/') (hs : s.data.head? ≠ some '/') :
    fullPath b s =
      "/" ++ String.intercalate "/" (List.filter (fun x => x != "") [b, s]) ∧
    (fullPath b s).data.head? = some '/' ∧
    (fullPath b s).data.tail.head? ≠ some '/' := by
  have hdata : ∀ x : String, ("/" ++ x).data = '/' :: x.data := by
    intro x
    rw [String.data_append]
    rfl
  refine ⟨rfl, ?_, ?_⟩
  · rw [fullPath, hdata]
    rfl
  · rw [fullPath, hdata]
    by_cases hb0 : b = ""
    · by_cases hs0 : s = ""
      · subst hb0; subst hs0
        decide
      · subst hb0
        have hsne : (s != "") = true := bne_iff_ne.mpr hs0
        have hfil : List.filter (fun x => x != "") ["", s] = [s] := by
          simp [List.filter, hsne]
        rw [hfil]
        simpa [String.intercalate, String.intercalate.go] using hs
    · by_cases hs0 : s = ""
      · subst hs0
        have hbne : (b != "") = true := bne_iff_ne.mpr hb0
        have hfil : List.filter (fun x => x != "") [b, ""] = [b] := by
          simp [List.filter, hbne]
        rw [hfil]
        simpa [String.intercalate, String.intercalate.go] using hb
      · have hbne : (b != "") = true := bne_iff_ne.mpr hb0
        have hsne : (s != "") = true := bne_iff_ne.mpr hs0
        have hfil : List.filter (fun x => x != "") [b, s] = [b, s] := by
          simp [List.filter, hbne, hsne]
        rw [hfil]
        have hint : String.intercalate "/" [b, s] = b ++ "/" ++ s := by
          simp [String.intercalate, String.intercalate.go]
        rw [hint]
        simp only [List.tail_cons, String.data_append]
        cases hbd : b.data with
        | nil => exact absurd hbd (data_ne_nil_of_ne_empty b hb0)
        | cons c cs =>
          rw [hbd] at hb
          simpa using hb

/-- Witness for C7 at the repository's own route segments. -/
theorem fullPath_one_leading_slash_witness :
    fullPath "items" ":id" =
      "/" ++ String.intercalate "/"
        (List.filter (fun x => x != "") ["items", ":id"]) ∧
    (fullPath "items" ":id").data.head? = some '/' ∧
    (fullPath "items" ":id").data.tail.head? ≠ some '/' :=
  fullPath_one_leading_slash "items" ":id" (by decide) (by decide)

/-- Counterexample to C7 as stated: a base path that itself begins with
a slash yields a path with two leading slashes. -/
theorem fullPath_double_slash :
    fullPath "/items" "" = "//items" ∧
    ("//items").data.head? = some '/' ∧
    ("//items").data.tail.head? = some '/' := by decide

/-! ## Claim C6: duplicate routes abort process start -/

theorem registerRoutes_dup (ops : List OpSpec) (acc : List String)
    (hacc : acc.Nodup) (h : ¬ (acc ++ opRouteIds ops).Nodup) :
    ∃ r, registerRoutes ops acc = .error ("Duplicate Route: " ++ r) ∧
      2 ≤ (acc ++ opRouteIds ops).count r := by
  induction ops generalizing acc with
  | nil =>
    simp only [opRouteIds, List.filterMap_nil, List.append_nil] at h
    exact absurd hacc h
  | cons op rest ih =>
    cases hv : op.verb with
    | none =>
      have hids : opRouteIds (op :: rest) = opRouteIds rest := by
        simp [opRouteIds, hv]
      rw [hids] at h
      obtain ⟨r, hr, hc⟩ := ih acc hacc h
      refine ⟨r, ?_, by rw [hids]; exact hc⟩
      simpa [registerRoutes, hv] using hr
    | some v =>
      have hids : opRouteIds (op :: rest) =
          routeId v (fullPath op.base op.sub) :: opRouteIds rest := by
        simp [opRouteIds, hv]
      by_cases hmem : acc.contains (routeId v (fullPath op.base op.sub)) = true
      · refine ⟨routeId v (fullPath op.base op.sub), ?_, ?_⟩
        · simp only [registerRoutes, hv]
          rw [if_pos hmem]
        · rw [hids, List.count_append, List.count_cons_self]
          have hone : 0 < acc.count (routeId v (fullPath op.base op.sub)) :=
            List.count_pos_iff.mpr (by simpa using hmem)
          omega
      · have hacc' : (acc ++ [routeId v (fullPath op.base op.sub)]).Nodup := by
          rw [List.nodup_append]
          refine ⟨hacc, List.nodup_singleton _, ?_⟩
          intro a ha hb
          rw [List.mem_singleton] at hb
          subst hb
          exact hmem (by simpa using ha)
        have harr : (acc ++ [routeId v (fullPath op.base op.sub)]) ++
            opRouteIds rest = acc ++ opRouteIds (op :: rest) := by
          rw [hids, List.append_assoc, List.singleton_append]
        have h' : ¬ ((acc ++ [routeId v (fullPath op.base op.sub)]) ++
            opRouteIds rest).Nodup := by
          rw [harr]
          exact h
        obtain ⟨r, hr, hc⟩ := ih _ hacc' h'
        refine ⟨r, ?_, by rw [← harr]; exact hc⟩
        simp only [registerRoutes, hv]
        rw [if_neg hmem]
        exact hr

/-- Claim C6 (confirmed): when two registered operations resolve to the
identical (verb, full path) pair, process start aborts during route-table
construction with an error identifying the duplicated route, and the
process never reaches the listening state — the abort happens before any
request can be served. -/
theorem duplicate_route_aborts_start (ops : List OpSpec)
    (l₁ l₂ l₃ : List OpSpec) (op₁ op₂ : OpSpec) (v : String)
    (hops : ops = l₁ ++ op₁ :: (l₂ ++ op₂ :: l₃))
    (h₁ : op₁.verb = some v) (h₂ : op₂.verb = some v)
    (hp : fullPath op₁.base op₁.sub = fullPath op₂.base op₂.sub) :
    (∃ r, serverStart ops = .error ("Duplicate Route: " ++ r) ∧
      2 ≤ (opRouteIds ops).count r) ∧
    ∀ routes, serverStart ops ≠ .ok routes := by
  subst hops
  have hids : opRouteIds (l₁ ++ op₁ :: (l₂ ++ op₂ :: l₃)) =
      opRouteIds l₁ ++ routeId v (fullPath op₂.base op₂.sub) ::
        (opRouteIds l₂ ++ routeId v (fullPath op₂.base op₂.sub) ::
          opRouteIds l₃) := by
    simp [opRouteIds, List.filterMap_append, List.filterMap_cons, h₁, h₂, hp]
  have hcnt : 2 ≤ (opRouteIds (l₁ ++ op₁ :: (l₂ ++ op₂ :: l₃))).count
      (routeId v (fullPath op₂.base op₂.sub)) := by
    rw [hids]
    simp only [List.count_append, List.count_cons_self]
    omega
  have hnotnd : ¬ (([] : List String) ++
      opRouteIds (l₁ ++ op₁ :: (l₂ ++ op₂ :: l₃))).Nodup := by
    rw [List.nil_append]
    intro hnd
    have := List.nodup_iff_count_le_one.mp hnd
      (routeId v (fullPath op₂.base op₂.sub))
    omega
  obtain ⟨r, hr, hc⟩ :=
    registerRoutes_dup (l₁ ++ op₁ :: (l₂ ++ op₂ :: l₃)) [] List.nodup_nil
      hnotnd
  refine ⟨⟨r, hr, by simpa using hc⟩, ?_⟩
  intro routes hok
  rw [serverStart] at hok
  rw [hr] at hok
  exact Except.noConfusion hok

/-- Witness for C6: two identical registrations of the items GET route
make start fail. -/
theorem duplicate_route_aborts_start_witness :
    (∃ r, serverStart [⟨some "get", "items", ""⟩, ⟨some "get", "items", ""⟩] =
      .error ("Duplicate Route: " ++ r)) ∧
    serverStart [⟨some "get", "items", ""⟩, ⟨some "get", "items", ""⟩] ≠
      .ok ["[GET] /items"] := by
  obtain ⟨⟨r, hr, _⟩, hno⟩ := duplicate_route_aborts_start
    [⟨some "get", "items", ""⟩, ⟨some "get", "items", ""⟩] [] [] []
    ⟨some "get", "items", ""⟩ ⟨some "get", "items", ""⟩ "get" rfl rfl rfl rfl
  exact ⟨⟨r, hr⟩, hno _⟩

end CdkLocal
